import Mathlib

/-!
Verification of the move-extraction/validation pipeline of the threeChess
LLM glue code (`llm_chess_api.py`, `call_all/one_function_to_call_them_all.py`).

Python strings are modelled as `List Char` (`Str`).  Python's `str.strip` /
`str.split()` / `str.lower` and the `re` searches used by the code are given
executable models below.  All text handled by the claims is ASCII, so ASCII
case mapping and the six ASCII whitespace characters recognised by Python's
`str.split`/`\s` are used.  The regular-expression searches of the source are
modelled as leftmost-match scanners; every quantifier in the source patterns
is followed by a token whose first character is outside the quantified class
(or the scanner backtracks over the relevant alternation explicitly), so
maximal-munch scanning coincides with Python's backtracking search on these
patterns.
-/

namespace ThreeChess

/-- Python strings are modelled as lists of characters. -/
abbrev Str := List Char

/-- Convert a Lean string literal to the `List Char` model. -/
def lit (s : String) : Str := s.data

/-- Python `str` whitespace for `strip`/`split()` and regex `\s`
    (space, tab, newline, carriage return, vertical tab, form feed). -/
def pyIsSpace (c : Char) : Bool :=
  c == ' ' || c == Char.ofNat 9 || c == Char.ofNat 10 ||
  c == Char.ofNat 13 || c == Char.ofNat 11 || c == Char.ofNat 12

/-- Regex `\w` (ASCII fragment: letters, digits, underscore). -/
def pyWordChar (c : Char) : Bool :=
  c.isAlpha || c.isDigit || c == '_'

/-- Python `str.lower` (ASCII). -/
def lowerStr (s : Str) : Str := s.map Char.toLower

/-- Python `str.upper` (ASCII). -/
def upperStr (s : Str) : Str := s.map Char.toUpper

/-- Python `str.lstrip()`. -/
def lstrip (s : Str) : Str := s.dropWhile pyIsSpace

/-- Python `str.strip()`: drop leading and trailing whitespace. -/
def strip (s : Str) : Str :=
  ((s.dropWhile pyIsSpace).reverse.dropWhile pyIsSpace).reverse

/-- Worker for `splitWS`; `acc` holds the current token reversed. -/
def splitWSGo : Str → Str → List Str
  | [], acc => if acc = [] then [] else [acc.reverse]
  | c :: t, acc =>
    if pyIsSpace c then
      if acc = [] then splitWSGo t [] else acc.reverse :: splitWSGo t []
    else
      splitWSGo t (c :: acc)

/-- Python `str.split()` with no argument: split on runs of whitespace,
    discarding empty fields. -/
def splitWS (s : Str) : List Str := splitWSGo s []

/-- `strStarts n h` is true when `n` is a prefix of `h` (Python `startswith`). -/
def strStarts : Str → Str → Bool
  | [], _ => true
  | _ :: _, [] => false
  | a :: as, b :: bs => a == b && strStarts as bs

/-- Case-insensitive prefix test (ASCII), used for `re.IGNORECASE` literals. -/
def strStartsCI : Str → Str → Bool
  | [], _ => true
  | _ :: _, [] => false
  | a :: as, b :: bs => a.toLower == b.toLower && strStartsCI as bs

/-- Python `needle in hay` for strings. -/
def isSubstr (n : Str) : Str → Bool
  | [] => n = []
  | h@(_ :: t) => strStarts n h || isSubstr n t

/-- Python `s.split(mk, 1)[1]` when `mk` occurs in `s`
    (the text after the first occurrence of `mk`). -/
def dropAfterFirst (mk : Str) : Str → Str
  | [] => []
  | s@(_ :: t) => if strStarts mk s then s.drop mk.length else dropAfterFirst mk t

/-- Python `s.split(mk, 1)[0]`: the text before the first occurrence of `mk`
    (the whole string when `mk` does not occur). -/
def takeBeforeFirst (mk : Str) : Str → Str
  | [] => []
  | s@(c :: t) => if strStarts mk s then [] else c :: takeBeforeFirst mk t

/-- Python `s.split("\n")[0]`. -/
def takeUntilNewline (s : Str) : Str := s.takeWhile (fun c => !(c == Char.ofNat 10))

/-- Python `.replace(".", "").replace("'", "").replace("\"", "")`:
    delete every period, apostrophe and double-quote character. -/
def removePunct (s : Str) : Str :=
  s.filter (fun c => !(c == '.' || c == Char.ofNat 39 || c == Char.ofNat 34))

-- ## Coordinate validator and move parser (`llm_chess_api.py` lines 21-123)

/-- `VALID_COLORS = ['R', 'B', 'G']`. -/
def VALID_COLORS : List Char := ['R', 'B', 'G']

/-- `VALID_FILES = ['A', 'B', 'C']`. -/
def VALID_FILES : List Char := ['A', 'B', 'C']

/-- `VALID_RANKS = ['1', '2', '3', '4']`. -/
def VALID_RANKS : List Char := ['1', '2', '3', '4']

/-- `is_valid_position(pos_str)`: a position is valid iff it is exactly three
    characters, colour in `VALID_COLORS`, file in `VALID_FILES`, rank in
    `VALID_RANKS`.  `none` models Python `None` (falsy, hence invalid); the
    function is total, modelling that the Python wrapper catches every
    exception and returns `False`. -/
def is_valid_position (posStr : Option Str) : Bool :=
  match posStr with
  | none => false
  | some s =>
    match s with
    | [c, f, r] => VALID_COLORS.contains c && VALID_FILES.contains f && VALID_RANKS.contains r
    | _ => false

/-- `validate_and_process_move(move_str, legal_moves)`: strip, split on
    whitespace, require exactly two valid positions; when a non-empty
    `legal_moves` list is supplied the stripped string must occur verbatim in
    it.  Returns the stripped move string on success, `none` on failure. -/
def validate_and_process_move (moveStr : Str) (legalMoves : Option (List Str)) : Option Str :=
  let m := strip moveStr
  match splitWS m with
  | [fromPos, toPos] =>
    if is_valid_position (some fromPos) && is_valid_position (some toPos) then
      match legalMoves with
      | some ls => if ls ≠ [] ∧ m ∉ ls then none else some m
      | none => some m
    else none
  | _ => none

/-- `find_closest_legal_move(move_str, legal_moves)`: among legal moves that
    start with the `from` token of `move_str`, the first; otherwise the first
    legal move.  `none` when either argument is empty/falsy. -/
def find_closest_legal_move (moveStr : Str) (legalMoves : List Str) : Option Str :=
  if moveStr = [] ∨ legalMoves = [] then none
  else
    match splitWS moveStr with
    | [] => some (legalMoves.headD [])
    | fromPos :: _ =>
      match legalMoves.filter (fun mv => strStarts fromPos mv) with
      | [] => some (legalMoves.headD [])
      | x :: _ => some x

-- ## Regex scanners used by the extraction cascade (`get_llm_move`)

/-- Regex `[RGB]` (case-sensitive). -/
def colorCharCS (c : Char) : Bool := c == 'R' || c == 'G' || c == 'B'

/-- Regex `[A-C]` (case-sensitive). -/
def fileCharCS (c : Char) : Bool := c == 'A' || c == 'B' || c == 'C'

/-- Regex `[1-4]`. -/
def rankChar (c : Char) : Bool := c == '1' || c == '2' || c == '3' || c == '4'

/-- Regex `[RGB]` under `re.IGNORECASE`. -/
def colorCharCI (c : Char) : Bool := colorCharCS c.toUpper

/-- Regex `[A-C]` under `re.IGNORECASE`. -/
def fileCharCI (c : Char) : Bool := fileCharCS c.toUpper

/-- Match `[RGB][A-C][1-4]` at the head of the input; `ci` selects
    `re.IGNORECASE`.  Returns the matched text and the rest of the input. -/
def matchCoord (ci : Bool) : Str → Option (Str × Str)
  | a :: b :: c :: rest =>
    if (if ci then colorCharCI a else colorCharCS a) &&
       (if ci then fileCharCI b else fileCharCS b) && rankChar c then
      some ([a, b, c], rest)
    else none
  | _ => none

/-- Match a single `[RGB]` character (ignore-case selectable). -/
def matchColorChar (ci : Bool) : Str → Option (Char × Str)
  | a :: rest => if (if ci then colorCharCI a else colorCharCS a) then some (a, rest) else none
  | [] => none

/-- Match `[A-C][1-4]` (ignore-case colour class only affects the file). -/
def matchFileRank (ci : Bool) : Str → Option (Str × Str)
  | b :: c :: rest =>
    if (if ci then fileCharCI b else fileCharCS b) && rankChar c then some ([b, c], rest)
    else none
  | _ => none

/-- Regex `\s+`: require at least one whitespace character, consume the run. -/
def spaces1 : Str → Option Str
  | c :: t => if pyIsSpace c then some (t.dropWhile pyIsSpace) else none
  | [] => none

/-- Regex `\s*`: consume an optional whitespace run. -/
def spaces0 (s : Str) : Str := s.dropWhile pyIsSpace

/-- Regex `\w+`: require at least one word character, consume the run. -/
def word1 : Str → Option Str
  | c :: t => if pyWordChar c then some (t.dropWhile pyWordChar) else none
  | [] => none

/-- Regex `[^\w]+`: at least one non-word character. -/
def nonWord1 : Str → Option Str
  | c :: t => if pyWordChar c then none else some (t.dropWhile (fun x => !pyWordChar x))
  | [] => none

/-- Regex `\s*[^\w]*\s*` collapsed: since `\s ⊆ [^\w]`, the three pieces
    jointly match exactly a (possibly empty) run of non-word characters. -/
def dropNonWord (s : Str) : Str := s.dropWhile (fun x => !pyWordChar x)

/-- Regex `[^A-C\d]+` under `re.IGNORECASE`: at least one character that is
    neither a file letter (either case) nor a digit. -/
def nonFileDigit1 : Str → Option Str
  | c :: t =>
    if fileCharCI c || c.isDigit then none
    else some (t.dropWhile (fun x => !(fileCharCI x || x.isDigit)))
  | [] => none

/-- Case-sensitive literal; returns the rest of the input on success. -/
def litCS (l : Str) (s : Str) : Option Str :=
  if strStarts l s then some (s.drop l.length) else none

/-- Ignore-case literal (patterns compiled with `re.IGNORECASE`). -/
def litCI (l : Str) (s : Str) : Option Str :=
  if strStartsCI l s then some (s.drop l.length) else none

/-- Ordered alternation `(?:a|b|...)` with full continuation backtracking:
    each alternative literal is tried in order, and the first alternative for
    which the continuation also succeeds wins (Python `re` semantics). -/
def tryAltsCont (k : Str → Option Str) : List Str → Str → Option Str
  | [], _ => none
  | a :: rest, s =>
    match (litCI a s).bind k with
    | some r => some r
    | none => tryAltsCont k rest s

/-- Regex `\s+(?:alt₁|...|altₙ)?\s+` followed by continuation `k`.  Python
    backtracks the first `\s+` when the optional group is empty, so the empty
    alternative requires a whitespace run of length at least two. -/
def altSandwich (alts : List Str) (k : Str → Option Str) (s : Str) : Option Str :=
  let run := s.takeWhile pyIsSpace
  if run = [] then none
  else
    let rest := s.drop run.length
    match tryAltsCont (fun r => (spaces1 r).bind k) alts rest with
    | some v => some v
    | none => if 2 ≤ run.length then k rest else none

/-- Leftmost search: try the matcher at each start position, left to right
    (`re.search` / the leftmost clause of `re.findall`). -/
def reSearch (f : Str → Option Str) : Str → Option Str
  | [] => f []
  | s@(_ :: t) =>
    match f s with
    | some r => some r
    | none => reSearch f t

/-- The literal `"→"` as a one-character string. -/
def arrowLit : Str := [Char.ofNat 8594]

/-- Join two captured groups with a single space (`f"{g1} {g2}"`). -/
def joinGroups (p q : Str) : Str := p ++ ' ' :: q

-- ### The four content patterns (case-sensitive, lines 677-682)

/-- `([RGB][A-C][1-4])\s+to\s+([RGB][A-C][1-4])` at one position. -/
def patToAt (ci : Bool) (s : Str) : Option Str :=
  (matchCoord ci s).bind fun pr =>
  (spaces1 pr.2).bind fun r2 =>
  ((if ci then litCI else litCS) (lit "to") r2).bind fun r3 =>
  (spaces1 r3).bind fun r4 =>
  (matchCoord ci r4).map fun qr => joinGroups pr.1 qr.1

/-- `([RGB][A-C][1-4])\s*-\s*([RGB][A-C][1-4])` at one position. -/
def patDashAt (ci : Bool) (s : Str) : Option Str :=
  (matchCoord ci s).bind fun pr =>
  ((if ci then litCI else litCS) (lit "-") (spaces0 pr.2)).bind fun r3 =>
  (matchCoord ci (spaces0 r3)).map fun qr => joinGroups pr.1 qr.1

/-- `([RGB][A-C][1-4])\s*→\s*([RGB][A-C][1-4])` at one position. -/
def patArrowAt (ci : Bool) (s : Str) : Option Str :=
  (matchCoord ci s).bind fun pr =>
  ((if ci then litCI else litCS) arrowLit (spaces0 pr.2)).bind fun r3 =>
  (matchCoord ci (spaces0 r3)).map fun qr => joinGroups pr.1 qr.1

/-- `([RGB][A-C][1-4])\s+([RGB][A-C][1-4])` at one position. -/
def patPairAt (ci : Bool) (s : Str) : Option Str :=
  (matchCoord ci s).bind fun pr =>
  (spaces1 pr.2).bind fun r2 =>
  (matchCoord ci r2).map fun qr => joinGroups pr.1 qr.1

/-- The content-fallback regex stage (lines 674-689): the four case-sensitive
    coordinate-pair patterns tried in order, first `re.search` hit wins. -/
def contentPatternScan (content : Str) : Option Str :=
  match reSearch (patToAt false) content with
  | some r => some r
  | none =>
  match reSearch (patDashAt false) content with
  | some r => some r
  | none =>
  match reSearch (patArrowAt false) content with
  | some r => some r
  | none => reSearch (patPairAt false) content

-- ### The ten reasoning `move_patterns` (IGNORECASE, lines 703-714)

/-- `moving\s+\w+\s+from\s+COORD\s+to\s+COORD`. -/
def patMovingAt (s : Str) : Option Str :=
  (litCI (lit "moving") s).bind fun r1 =>
  (spaces1 r1).bind fun r2 =>
  (word1 r2).bind fun r3 =>
  (spaces1 r3).bind fun r4 =>
  (litCI (lit "from") r4).bind fun r5 =>
  (spaces1 r5).bind fun r6 =>
  (matchCoord true r6).bind fun pr =>
  (spaces1 pr.2).bind fun r7 =>
  (litCI (lit "to") r7).bind fun r8 =>
  (spaces1 r8).bind fun r9 =>
  (matchCoord true r9).map fun qr => joinGroups pr.1 qr.1

/-- `move\s+\w+\s+from\s+COORD\s+to\s+COORD`. -/
def patMoveFromAt (s : Str) : Option Str :=
  (litCI (lit "move") s).bind fun r1 =>
  (spaces1 r1).bind fun r2 =>
  (word1 r2).bind fun r3 =>
  (spaces1 r3).bind fun r4 =>
  (litCI (lit "from") r4).bind fun r5 =>
  (spaces1 r5).bind fun r6 =>
  (matchCoord true r6).bind fun pr =>
  (spaces1 pr.2).bind fun r7 =>
  (litCI (lit "to") r7).bind fun r8 =>
  (spaces1 r8).bind fun r9 =>
  (matchCoord true r9).map fun qr => joinGroups pr.1 qr.1

/-- `([RGB][A-C][1-4])[^\w]+([RGB][A-C][1-4])`. -/
def patNonWordPairAt (s : Str) : Option Str :=
  (matchCoord true s).bind fun pr =>
  (nonWord1 pr.2).bind fun r2 =>
  (matchCoord true r2).map fun qr => joinGroups pr.1 qr.1

/-- `from\s+COORD\s+to\s+COORD`. -/
def patFromToAt (s : Str) : Option Str :=
  (litCI (lit "from") s).bind fun r1 =>
  (spaces1 r1).bind fun r2 =>
  (matchCoord true r2).bind fun pr =>
  (spaces1 pr.2).bind fun r3 =>
  (litCI (lit "to") r3).bind fun r4 =>
  (spaces1 r4).bind fun r5 =>
  (matchCoord true r5).map fun qr => joinGroups pr.1 qr.1

/-- `play\s+COORD\s+to\s+COORD`. -/
def patPlayToAt (s : Str) : Option Str :=
  (litCI (lit "play") s).bind fun r1 =>
  (spaces1 r1).bind fun r2 =>
  (matchCoord true r2).bind fun pr =>
  (spaces1 pr.2).bind fun r3 =>
  (litCI (lit "to") r3).bind fun r4 =>
  (spaces1 r4).bind fun r5 =>
  (matchCoord true r5).map fun qr => joinGroups pr.1 qr.1

/-- `([RGB])[^A-C\d]+([A-C][1-4])\s+to\s+([RGB])[^A-C\d]+([A-C][1-4])`:
    four groups, recombined as `f"{g1}{g2} {g3}{g4}"`. -/
def patSepColorAt (s : Str) : Option Str :=
  (matchColorChar true s).bind fun ar =>
  (nonFileDigit1 ar.2).bind fun r2 =>
  (matchFileRank true r2).bind fun fr =>
  (spaces1 fr.2).bind fun r3 =>
  (litCI (lit "to") r3).bind fun r4 =>
  (spaces1 r4).bind fun r5 =>
  (matchColorChar true r5).bind fun br =>
  (nonFileDigit1 br.2).bind fun r6 =>
  (matchFileRank true r6).map fun gr => ar.1 :: (fr.1 ++ ' ' :: br.1 :: gr.1)

/-- The `move_patterns` loop over the reasoning text (lines 716-726):
    ten IGNORECASE patterns, first `re.search` hit wins. -/
def movePatternScan (rt : Str) : Option Str :=
  match reSearch (patToAt true) rt with
  | some r => some r
  | none =>
  match reSearch (patDashAt true) rt with
  | some r => some r
  | none =>
  match reSearch (patArrowAt true) rt with
  | some r => some r
  | none =>
  match reSearch (patPairAt true) rt with
  | some r => some r
  | none =>
  match reSearch patMovingAt rt with
  | some r => some r
  | none =>
  match reSearch patMoveFromAt rt with
  | some r => some r
  | none =>
  match reSearch patNonWordPairAt rt with
  | some r => some r
  | none =>
  match reSearch patFromToAt rt with
  | some r => some r
  | none =>
  match reSearch patPlayToAt rt with
  | some r => some r
  | none => reSearch patSepColorAt rt

-- ### The six `piece_patterns` (IGNORECASE, lines 731-737)

/-- Exactly `n` repetitions of `\s+\w+`. -/
def repSW : Nat → Str → Option Str
  | 0, s => some s
  | n + 1, s => ((spaces1 s).bind word1).bind (repSW n)

/-- Greedy bounded repetition `(?:\s+\w+){1,maxN}` followed by continuation
    `k`: Python tries the largest repetition count first and backtracks. -/
def repSWBack (k : Str → Option Str) : Nat → Str → Option Str
  | 0, _ => none
  | n + 1, s =>
    match (repSW (n + 1) s).bind k with
    | some r => some r
    | none => repSWBack k n s

/-- `head\s+(?:on|at|from)?\s+(COORD)\s+(?:to|moves to|→)\s+(COORD)` where
    `head` ranges over the alternation of piece names. -/
def patPieceAt (heads : List Str) (s : Str) : Option Str :=
  tryAltsCont (fun r1 =>
    altSandwich [lit "on", lit "at", lit "from"] (fun r2 =>
      (matchCoord true r2).bind fun pr =>
      (spaces1 pr.2).bind fun r3 =>
      tryAltsCont (fun r4 =>
        (spaces1 r4).bind fun r5 =>
        (matchCoord true r5).map fun qr => joinGroups pr.1 qr.1)
        [lit "to", lit "moves to", arrowLit] r3) r1) heads s

/-- `move\s+(?:the|my)?\s+\w+\s+(?:from)?\s+(COORD)\s+(?:to|towards)?\s+(COORD)`. -/
def patMoveTheAt (s : Str) : Option Str :=
  (litCI (lit "move") s).bind fun r1 =>
  altSandwich [lit "the", lit "my"] (fun r2 =>
    (word1 r2).bind fun r3 =>
    altSandwich [lit "from"] (fun r4 =>
      (matchCoord true r4).bind fun pr =>
      altSandwich [lit "to", lit "towards"] (fun r5 =>
        (matchCoord true r5).map fun qr => joinGroups pr.1 qr.1) pr.2) r3) r1

/-- `(COORD)(?:\s+\w+){1,5}\s+(COORD)`. -/
def patCoordWordsAt (s : Str) : Option Str :=
  (matchCoord true s).bind fun pr =>
  repSWBack (fun r =>
    (spaces1 r).bind fun r2 =>
    (matchCoord true r2).map fun qr => joinGroups pr.1 qr.1) 5 pr.2

/-- `(?:on|at|from)\s+(COORD)(?:\s+\w+){1,3}\s+(?:to|towards)\s+(COORD)`. -/
def patOnAtFromAt (s : Str) : Option Str :=
  tryAltsCont (fun r1 =>
    (spaces1 r1).bind fun r2 =>
    (matchCoord true r2).bind fun pr =>
    repSWBack (fun r3 =>
      (spaces1 r3).bind fun r4 =>
      tryAltsCont (fun r5 =>
        (spaces1 r5).bind fun r6 =>
        (matchCoord true r6).map fun qr => joinGroups pr.1 qr.1)
        [lit "to", lit "towards"] r4) 3 pr.2)
    [lit "on", lit "at", lit "from"] s

/-- The `piece_patterns` loop (lines 740-745): six IGNORECASE patterns. -/
def piecePatternScan (rt : Str) : Option Str :=
  match reSearch (patPieceAt [lit "knight"]) rt with
  | some r => some r
  | none =>
  match reSearch (patPieceAt [lit "pawn"]) rt with
  | some r => some r
  | none =>
  match reSearch (patPieceAt [lit "king", lit "queen", lit "rook", lit "bishop"]) rt with
  | some r => some r
  | none =>
  match reSearch patMoveTheAt rt with
  | some r => some r
  | none =>
  match reSearch patCoordWordsAt rt with
  | some r => some r
  | none => reSearch patOnAtFromAt rt

-- ### The two `color_position_patterns` (IGNORECASE, lines 749-752)

/-- `([RGB])\s*[^\w]*\s*([A-C][1-4])\s+(?:to|moves to|→)\s+([RGB])\s*[^\w]*\s*([A-C][1-4])`,
    recombined as `f"{g1}{g2} {g3}{g4}"`. -/
def patColorSepAt (s : Str) : Option Str :=
  (matchColorChar true s).bind fun ar =>
  (matchFileRank true (dropNonWord ar.2)).bind fun fr =>
  (spaces1 fr.2).bind fun r3 =>
  tryAltsCont (fun r4 =>
    (spaces1 r4).bind fun r5 =>
    (matchColorChar true r5).bind fun br =>
    (matchFileRank true (dropNonWord br.2)).map fun gr =>
      ar.1 :: (fr.1 ++ ' ' :: br.1 :: gr.1))
    [lit "to", lit "moves to", arrowLit] r3

/-- `from\s+([RGB])\s*[^\w]*\s*([A-C][1-4])\s+to\s+([RGB])\s*[^\w]*\s*([A-C][1-4])`. -/
def patFromColorSepAt (s : Str) : Option Str :=
  (litCI (lit "from") s).bind fun r1 =>
  (spaces1 r1).bind fun r2 =>
  (matchColorChar true r2).bind fun ar =>
  (matchFileRank true (dropNonWord ar.2)).bind fun fr =>
  (spaces1 fr.2).bind fun r3 =>
  (litCI (lit "to") r3).bind fun r4 =>
  (spaces1 r4).bind fun r5 =>
  (matchColorChar true r5).bind fun br =>
  (matchFileRank true (dropNonWord br.2)).map fun gr =>
    ar.1 :: (fr.1 ++ ' ' :: br.1 :: gr.1)

/-- The `color_position_patterns` loop (lines 754-762). -/
def colorPosScan (rt : Str) : Option Str :=
  match reSearch patColorSepAt rt with
  | some r => some r
  | none => reSearch patFromColorSepAt rt

-- ### Coordinate-proximity fallback (lines 766-777)

/-- `re.findall(r'([RGB][A-C][1-4])', s)` (case-sensitive, non-overlapping,
    left to right). -/
def findAllCoords : Str → List Str
  | a :: b :: c :: rest =>
    if colorCharCS a && fileCharCS b && rankChar c then
      [a, b, c] :: findAllCoords rest
    else
      findAllCoords (b :: c :: rest)
  | _ => []

/-- First adjacent pair of found coordinates sharing the colour prefix
    (`all_coordinates[i][0] == all_coordinates[i+1][0]`). -/
def firstAdjSameColor : List Str → Option Str
  | a :: b :: t =>
    if a.headD ' ' == b.headD ' ' then some (a ++ ' ' :: b)
    else firstAdjSameColor (b :: t)
  | _ => none

/-- The proximity stage: collect all coordinates in the reasoning text and
    return the first adjacent same-colour pair. -/
def proximityScan (rt : Str) : Option Str :=
  firstAdjSameColor (findAllCoords rt)

-- ## Sentinel markers and marker-phrase scans

/-- The opening sentinel `<<MOVE>>`. -/
def sentOpen : Str := lit "<<MOVE>>"

/-- The closing sentinel `<<END_MOVE>>`. -/
def sentClose : Str := lit "<<END_MOVE>>"

/-- Wrap a move in sentinel markers (`f"<<MOVE>>{move}<<END_MOVE>>"`,
    line 615). -/
def wrapSentinel (m : Str) : Str := sentOpen ++ m ++ sentClose

/-- `re.search(r'<<MOVE>>([^<]+)<<END_MOVE>>', s)` at one start position:
    the literal opener, then a maximal non-empty run of non-`<` characters
    (maximal munch agrees with the greedy `[^<]+` because the closer starts
    with `<`), then the literal closer.  Returns group 1. -/
def matchSentinelAt (s : Str) : Option Str :=
  if strStarts sentOpen s then
    let rest := s.drop sentOpen.length
    let run := rest.takeWhile (fun c => !(c == '<'))
    if run ≠ [] ∧ strStarts sentClose (rest.drop run.length) then some run else none
  else none

/-- Leftmost search for the sentinel pattern. -/
def sentinelSearch (s : Str) : Option Str := reSearch matchSentinelAt s

/-- `reasoning_text`'s initial value (line 597). -/
def defaultReasoning : Str := lit "No explicit reasoning provided"

/-- The reasoning-marker scan over the lower-cased content (lines 632-652):
    for the first reasoning marker present, take the text after it, then
    cumulatively truncate it before each move marker it contains; the result
    replaces the reasoning text. -/
def reasoningMarkerScan (lc : Str) (r0 : Str) : Str :=
  match (([lit "reasoning:", lit "analysis:", lit "thinking:", lit "i think:"].filter
      (fun mk => isSubstr mk lc))) with
  | [] => r0
  | mk :: _ =>
    let part0 := strip (dropAfterFirst mk lc)
    [lit "my move:", lit "move:", lit "i choose:", lit "final move:"].foldl
      (fun rp mm =>
        if isSubstr mm (lowerStr rp) then strip (takeBeforeFirst mm rp) else rp)
      part0

/-- One move-marker attempt (lines 660-672): text after the marker in the
    lower-cased content, first line, punctuation removed; accepted only when
    it contains a space and has length at least 5. -/
def moveMarkerTry (mk : Str) (lc : Str) : Option Str :=
  if isSubstr mk lc then
    let p := strip (removePunct (strip (takeUntilNewline (strip (dropAfterFirst mk lc)))))
    if p.contains ' ' && decide (5 ≤ p.length) then some p else none
  else none

/-- The move-marker loop: first marker that occurs and yields an acceptable
    candidate wins; markers that occur but fail the acceptance test do not
    stop the loop. -/
def moveMarkerScan (lc : Str) : Option Str :=
  match moveMarkerTry (lit "move:") lc with
  | some r => some r
  | none =>
  match moveMarkerTry (lit "my move:") lc with
  | some r => some r
  | none =>
  match moveMarkerTry (lit "i choose:") lc with
  | some r => some r
  | none =>
  match moveMarkerTry (lit "final move:") lc with
  | some r => some r
  | none => moveMarkerTry (lit "i play:") lc

-- ## The extraction cascade (`get_llm_move`, lines 596-814)

/-- A tool invocation in the LLM response: function name plus JSON string
    arguments. -/
structure ToolCall where
  name : Str
  args : List (Str × Str)

/-- `arguments.get(key, dflt)`. -/
def getArg (args : List (Str × Str)) (key : Str) (dflt : Str) : Str :=
  match args.find? (fun kv => kv.1 = key) with
  | some kv => kv.2
  | none => dflt

/-- The LLM response as seen by the cascade: the list of tool invocations and
    the optional free-text content (`none` models Python `None`). -/
structure LLMResponse where
  toolCalls : List ToolCall
  content : Option Str

/-- The tool-invocation stage (lines 600-616): iterate over tool calls; a
    `think` call sets the reasoning text, a `decide_move` call sets the move
    wrapped in sentinel markers.  Later calls overwrite earlier ones. -/
def toolStage (tcs : List ToolCall) : Option Str × Str :=
  tcs.foldl
    (fun acc tc =>
      let acc1 := if tc.name = lit "think" then
          (acc.1, getArg tc.args (lit "analysis") (lit "No reasoning provided"))
        else acc
      if tc.name = lit "decide_move" then
        (some (wrapSentinel (getArg tc.args (lit "move") [])), acc1.2)
      else acc1)
    (none, defaultReasoning)

/-- The free-text content stage (lines 619-695), reached when the tool stage
    produced nothing and the content is truthy.  Returns the extracted
    candidate (the raw-content fallback guarantees a string, possibly empty)
    and the possibly-updated reasoning text. -/
def contentStage (rawContent : Str) (r0 : Str) : Str × Str :=
  let content := strip rawContent
  match sentinelSearch content with
  | some inner => (strip inner, r0)
  | none =>
    let lc := lowerStr content
    let r1 := if r0 = defaultReasoning then reasoningMarkerScan lc r0 else r0
    let fm :=
      match moveMarkerScan lc with
      | some f => some f
      | none => contentPatternScan content
    match fm with
    | some f => (f, r1)
    | none => (content, r1)

/-- The reasoning-scan stage (lines 703-777): `move_patterns`, then
    `piece_patterns`, then `color_position_patterns`, then the coordinate
    proximity fallback. -/
def reasoningStage (rt : Str) : Option Str :=
  match movePatternScan rt with
  | some r => some r
  | none =>
  match piecePatternScan rt with
  | some r => some r
  | none =>
  match colorPosScan rt with
  | some r => some r
  | none => proximityScan rt

/-- The candidate produced by the cascade before the fixed per-colour
    fallback (the value of `final_move` at line 779): tool stage, then
    content stage, then — when the candidate is still `None` or empty — the
    reasoning scans.  `none` covers both Python `None` and `""`. -/
def rawCandidate (resp : LLMResponse) : Option Str :=
  let t := toolStage resp.toolCalls
  let s1 : Option Str × Str :=
    match t.1 with
    | some f => (some f, t.2)
    | none =>
      match resp.content with
      | some c =>
        if c = [] then (none, t.2)
        else
          let cs := contentStage c t.2
          (some cs.1, cs.2)
      | none => (none, t.2)
  match s1.1 with
  | some f => if f = [] then reasoningStage s1.2 else some f
  | none => reasoningStage s1.2

/-- The fixed per-colour fallback move (lines 783-788, 809-814, 856-861,
    885-890, 902-907 all repeat this exact conditional). -/
def fallbackMove (color : Str) : Str :=
  if color = lit "BLUE" then lit "BA2 BA3"
  else if color = lit "RED" then lit "RA2 RA3"
  else lit "GA2 GA3"

/-- Lines 780-789: when the cascade recovered nothing, substitute the fixed
    per-colour fallback move. -/
def candidateWithFallback (resp : LLMResponse) (color : Str) : Str :=
  match rawCandidate resp with
  | some m => if m = [] then fallbackMove color else m
  | none => fallbackMove color

/-- Lines 791-796: if sentinel markers are still present, unwrap them. -/
def sentinelUnwrapStep (m : Str) : Str :=
  if isSubstr sentOpen m && isSubstr sentClose m then
    match sentinelSearch m with
    | some inner => strip inner
    | none => m
  else m

/-- Lines 798-803: a non-empty space-free candidate of exactly six characters
    gets a space inserted after position 3. -/
def repairStep (m : Str) : Str :=
  if m ≠ [] ∧ m.contains ' ' = false ∧ m.length = 6 then
    m.take 3 ++ ' ' :: m.drop 3
  else m

/-- Post-processing applied to the cascade result (lines 791-803). -/
def postProcess (m : Str) : Str := repairStep (sentinelUnwrapStep m)

/-- The full move-extraction function `get_llm_move` (success path): cascade,
    fixed fallback, post-processing, final validation, and the per-colour
    fallback on validation failure (lines 805-814). -/
def get_llm_move_model (resp : LLMResponse) (color : Str) : Str :=
  let p := postProcess (candidateWithFallback resp color)
  match validate_and_process_move p none with
  | some v => v
  | none => fallbackMove color

-- ## The `/get-move` HTTP handler (lines 863-921)

/-- The handler's normalisation of the move returned by `get_llm_move`
    (lines 882-908): empty-move fallback, sentinel unwrap, final validation
    with per-colour fallback. -/
def handlerNormalize (move : Str) (color : Str) : Str :=
  let m1 := if move = [] then fallbackMove color else move
  let m2 :=
    match sentinelSearch m1 with
    | some inner => strip inner
    | none => m1
  match validate_and_process_move m2 none with
  | some v => v
  | none => fallbackMove color

/-- The `/get-move` endpoint's move computation. -/
def get_move_model (resp : LLMResponse) (color : Str) : Str :=
  handlerNormalize (get_llm_move_model resp color) color

-- ## Agent memory (`AGENT_MEMORY["moves"]`, lines 838-847 and 951-957)

/-- A recorded move.  Only the fields relevant to the validity statistics are
    modelled. -/
structure MoveRecord where
  color : Str
  move : Str
  valid : Bool

/-- Line 839-847: the record appended for every produced move always carries
    `valid = True` (the comment "will be updated when validation occurs"
    notwithstanding, no code ever writes the flag again). -/
def recordMove (ms : List MoveRecord) (color move : Str) : List MoveRecord :=
  ms ++ [⟨color, move, true⟩]

/-- States of the `moves` log reachable in the program: it starts empty and
    the only mutation anywhere in the module is the `recordMove` append. -/
inductive MovesReachable : List MoveRecord → Prop
  | init : MovesReachable []
  | step (ms : List MoveRecord) (color move : Str) :
      MovesReachable ms → MovesReachable (recordMove ms color move)

/-- `valid_moves` of the `/agent-memory` statistics (line 952). -/
def validMovesCount (ms : List MoveRecord) : Nat :=
  (ms.filter (fun m => m.valid)).length

/-- `invalid_moves` of the `/agent-memory` statistics (line 955). -/
def invalidMovesCount (ms : List MoveRecord) : Nat :=
  ms.length - validMovesCount ms

/-- `validity_percentage` of the `/agent-memory` statistics (line 956). -/
def validityPercentage (ms : List MoveRecord) : ℚ :=
  (validMovesCount ms : ℚ) / (max 1 ms.length : ℚ) * 100

-- ## Provider dispatch (`call_all/one_function_to_call_them_all.py`)

/-- `get_api_key(provider)`: `os.getenv(f"{provider.upper()}_API_KEY", "")`.
    The environment is modelled as a partial map from variable names to
    values. -/
def get_api_key (env : Str → Option Str) (provider : Str) : Str :=
  (env (upperStr provider ++ lit "_API_KEY")).getD []

/-- The wrapping applied by the `except` clause (lines 110-113):
    `f"Error calling {provider} LLM: {str(e)}"`. -/
def wrapProviderError (provider : Str) (e : Str) : Str :=
  lit "Error calling " ++ provider ++ lit " LLM: " ++ e

/-- `one_function_to_call_them_all`: the credential check (lines 60-62) runs
    before any client is constructed; the provider call itself — client
    construction, model selection and the network request — is abstracted as
    `call`, a function of the api key that either returns response text or
    fails with a message.  Any raised error is wrapped with provider context
    by the `except` clause. -/
def one_function_to_call_them_all (env : Str → Option Str) (provider : Str)
    (call : Str → Except Str Str) : Except Str Str :=
  let apiKey := get_api_key env provider
  if apiKey = [] ∨ strip apiKey = [] then
    .error (wrapProviderError provider (lit "No API key found for " ++ provider))
  else
    match call apiKey with
    | .ok r => .ok r
    | .error e => .error (wrapProviderError provider e)

-- ## Well-formed moves

/-- All 36 valid position tokens of the coordinate grammar
    `{R,B,G}{A,B,C}{1,2,3,4}`. -/
def validPositions : List Str :=
  VALID_COLORS.flatMap fun c =>
    VALID_FILES.flatMap fun f =>
      VALID_RANKS.map fun r => [c, f, r]

/-- Serialize a move: `"{from} {to}"` with exactly one separating space. -/
def joinMove (p q : Str) : Str := p ++ ' ' :: q

/-- All 1296 well-formed move strings. -/
def validMoves : List Str :=
  validPositions.flatMap fun p => validPositions.map (joinMove p)

/-- A well-formed move string: two valid three-character position tokens
    separated by exactly one space. -/
def isWellFormedMove (m : Str) : Bool :=
  match m with
  | [c1, f1, r1, sp, c2, f2, r2] =>
    sp == ' ' &&
    is_valid_position (some [c1, f1, r1]) && is_valid_position (some [c2, f2, r2])
  | _ => false

lemma mem_validPositions {c f r : Char} (hc : c ∈ VALID_COLORS) (hf : f ∈ VALID_FILES)
    (hr : r ∈ VALID_RANKS) : [c, f, r] ∈ validPositions := by
  exact List.mem_flatMap.mpr ⟨c, hc, List.mem_flatMap.mpr ⟨f, hf,
    List.mem_map.mpr ⟨r, hr, rfl⟩⟩⟩

lemma mem_validPositions_shape {p : Str} (hp : p ∈ validPositions) :
    ∃ c f r, p = [c, f, r] ∧ c ∈ VALID_COLORS ∧ f ∈ VALID_FILES ∧ r ∈ VALID_RANKS := by
  obtain ⟨c, hc, hrest⟩ := List.mem_flatMap.mp hp
  obtain ⟨f, hf, hrest2⟩ := List.mem_flatMap.mp hrest
  obtain ⟨r, hr, hEq⟩ := List.mem_map.mp hrest2
  exact ⟨c, f, r, hEq.symm, hc, hf, hr⟩

lemma valid_position_of_mem {p : Str} (hp : p ∈ validPositions) :
    is_valid_position (some p) = true := by
  obtain ⟨c, f, r, rfl, hc, hf, hr⟩ := mem_validPositions_shape hp
  simp only [is_valid_position, Bool.and_eq_true]
  refine ⟨⟨?_, ?_⟩, ?_⟩ <;> simpa

lemma mem_validPositions_of_valid {c f r : Char}
    (h : is_valid_position (some [c, f, r]) = true) : [c, f, r] ∈ validPositions := by
  simp only [is_valid_position, Bool.and_eq_true] at h
  exact mem_validPositions (by simpa using h.1.1) (by simpa using h.1.2) (by simpa using h.2)

/-- Decomposition of a well-formed move into its two valid positions. -/
lemma isWellFormedMove_shape {m : Str} (h : isWellFormedMove m = true) :
    ∃ p q, p ∈ validPositions ∧ q ∈ validPositions ∧ m = joinMove p q := by
  have hex : ∃ c1 f1 r1 sp c2 f2 r2, m = [c1, f1, r1, sp, c2, f2, r2] := by
    rcases m with _ | ⟨a, _ | ⟨b, _ | ⟨c, _ | ⟨d, _ | ⟨e, _ | ⟨f, _ | ⟨g, _ | ⟨x, t⟩⟩⟩⟩⟩⟩⟩⟩ <;>
      first
        | exact ⟨_, _, _, _, _, _, _, rfl⟩
        | exact absurd h (by simp [isWellFormedMove])
  obtain ⟨c1, f1, r1, sp, c2, f2, r2, rfl⟩ := hex
  have h' : ((sp == ' ') && is_valid_position (some [c1, f1, r1]) &&
      is_valid_position (some [c2, f2, r2])) = true := h
  rw [Bool.and_eq_true, Bool.and_eq_true] at h'
  obtain ⟨⟨hsp, h1⟩, h2⟩ := h'
  have hsp' : sp = ' ' := by simpa using hsp
  subst hsp'
  exact ⟨[c1, f1, r1], [c2, f2, r2], mem_validPositions_of_valid h1,
    mem_validPositions_of_valid h2, rfl⟩

lemma mem_validMoves {p q : Str} (hp : p ∈ validPositions) (hq : q ∈ validPositions) :
    joinMove p q ∈ validMoves :=
  List.mem_flatMap.mpr ⟨p, hp, List.mem_map.mpr ⟨q, hq, rfl⟩⟩

lemma isWellFormedMove_mem {m : Str} (h : isWellFormedMove m = true) : m ∈ validMoves := by
  obtain ⟨p, q, hp, hq, rfl⟩ := isWellFormedMove_shape h
  exact mem_validMoves hp hq

-- ## Exhaustive facts about well-formed moves (kernel-checked enumeration)

set_option maxRecDepth 100000 in
lemma wf_strip_split_enum : (validPositions.all fun p => validPositions.all fun q =>
    (strip (joinMove p q) == joinMove p q) && (splitWS (joinMove p q) == [p, q])) = true := by
  decide

set_option maxRecDepth 100000 in
lemma wf_content_pipe_enum : (validMoves.all fun m =>
    ((contentStage m defaultReasoning).1 == m) &&
    (validate_and_process_move (postProcess m) none == some m)) = true := by
  decide

set_option maxRecDepth 100000 in
lemma wf_wrap_pipe_enum : (validMoves.all fun m =>
    validate_and_process_move (postProcess (wrapSentinel m)) none == some m) = true := by
  decide

lemma wf_strip_split {p q : Str} (hp : p ∈ validPositions) (hq : q ∈ validPositions) :
    strip (joinMove p q) = joinMove p q ∧ splitWS (joinMove p q) = [p, q] := by
  have h := List.all_eq_true.mp wf_strip_split_enum p hp
  have h2 := List.all_eq_true.mp (List.all_eq_true.mp wf_strip_split_enum p hp) q hq
  rw [Bool.and_eq_true, beq_iff_eq, beq_iff_eq] at h2
  exact h2

lemma contentStage_wf {m : Str} (hm : m ∈ validMoves) :
    (contentStage m defaultReasoning).1 = m := by
  have h := List.all_eq_true.mp wf_content_pipe_enum m hm
  rw [Bool.and_eq_true, beq_iff_eq, beq_iff_eq] at h
  exact h.1

lemma validate_postProcess_wf {m : Str} (hm : m ∈ validMoves) :
    validate_and_process_move (postProcess m) none = some m := by
  have h := List.all_eq_true.mp wf_content_pipe_enum m hm
  rw [Bool.and_eq_true, beq_iff_eq, beq_iff_eq] at h
  exact h.2

lemma validate_postProcess_wrap {m : Str} (hm : m ∈ validMoves) :
    validate_and_process_move (postProcess (wrapSentinel m)) none = some m := by
  have h := List.all_eq_true.mp wf_wrap_pipe_enum m hm
  rw [beq_iff_eq] at h
  exact h

-- ## Helper lemmas about the cascade

lemma splitWS_nil : splitWS [] = [] := rfl

lemma validate_eq_some_ne_nil {p v : Str}
    (h : validate_and_process_move p none = some v) : v ≠ [] := by
  simp only [validate_and_process_move] at h
  split at h
  · rename_i fromPos toPos heq
    split at h
    · injection h with h2
      intro hv
      rw [hv] at h2
      rw [h2, splitWS_nil] at heq
      exact List.noConfusion heq
    · exact Option.noConfusion h
  · exact Option.noConfusion h

lemma fallbackMove_ne_nil (color : Str) : fallbackMove color ≠ [] := by
  unfold fallbackMove
  split_ifs <;> decide

lemma validate_postProcess_fallback (color : Str) :
    validate_and_process_move (postProcess (fallbackMove color)) none =
      some (fallbackMove color) := by
  unfold fallbackMove
  split_ifs <;> decide

lemma get_llm_move_of_rawNone {resp : LLMResponse} {color : Str}
    (h : rawCandidate resp = none) :
    get_llm_move_model resp color = fallbackMove color := by
  simp only [get_llm_move_model, candidateWithFallback, h]
  rw [validate_postProcess_fallback]

lemma get_llm_move_of_validate_none {resp : LLMResponse} {color : Str}
    (h : validate_and_process_move (postProcess (candidateWithFallback resp color)) none = none) :
    get_llm_move_model resp color = fallbackMove color := by
  simp only [get_llm_move_model, h]

lemma wrapSentinel_ne_nil (m : Str) : wrapSentinel m ≠ [] := by
  intro h
  unfold wrapSentinel at h
  have h2 := (List.append_eq_nil.mp h).2
  exact absurd h2 (by decide)

lemma rawCandidate_tool {tcs : List ToolCall} {w : Str} {cnt : Option Str}
    (h : (toolStage tcs).1 = some w) (hw : w ≠ []) :
    rawCandidate ⟨tcs, cnt⟩ = some w := by
  simp only [rawCandidate, h]
  simp [hw]

lemma rawCandidate_content_wf {m : Str} (hm : m ∈ validMoves) (hne : m ≠ []) :
    rawCandidate ⟨[], some m⟩ = some m := by
  have hcs := contentStage_wf hm
  simp only [rawCandidate, toolStage, List.foldl_nil]
  simp [hne, hcs]

-- ## Closest-legal-move refinement (spec wording vs. implementation)

/-- The closest-move suggestion as the spec words it: among legal moves
    sharing the same `from` token, the first; if none shares it, the first
    legal move in the list. -/
def closestLegalMoveSpec (m : Str) (legal : List Str) : Str :=
  match legal.filter (fun l => (splitWS m).headD [] = (splitWS l).headD []) with
  | [] => legal.headD []
  | x :: _ => x

lemma char_beq_eq_decide (x y : Char) : (x == y) = decide (x = y) := rfl

lemma strStarts_three (a b c d e f : Char) (rest : Str) :
    strStarts [a, b, c] (d :: e :: f :: rest) = ((a == d) && ((b == e) && (c == f))) := by
  simp [strStarts]

lemma strStarts_joinMove_eq {p p' : Str} (q' : Str) (hp : p ∈ validPositions)
    (hp' : p' ∈ validPositions) :
    strStarts p (joinMove p' q') = decide (p = p') := by
  obtain ⟨a, b, c, rfl, -, -, -⟩ := mem_validPositions_shape hp
  obtain ⟨d, e, f, rfl, -, -, -⟩ := mem_validPositions_shape hp'
  have hj : joinMove [d, e, f] q' = d :: e :: f :: ' ' :: q' := rfl
  rw [hj, strStarts_three]
  by_cases had : a = d <;> by_cases hbe : b = e <;> by_cases hcf : c = f <;>
    simp [char_beq_eq_decide, had, hbe, hcf]

lemma joinMove_ne_nil {p : Str} (hp : p ∈ validPositions) (q : Str) :
    joinMove p q ≠ [] := by
  obtain ⟨a, b, c, rfl, -, -, -⟩ := mem_validPositions_shape hp
  simp [joinMove]

/-- The implementation's `startswith`-based suggestion coincides with the
    spec's same-`from`-token description on lists of well-formed moves. -/
lemma find_closest_eq_spec {p q : Str} (hp : p ∈ validPositions) (hq : q ∈ validPositions)
    {legal : List Str} (hlegal : legal ≠ [])
    (hwf : ∀ l ∈ legal, isWellFormedMove l = true) :
    find_closest_legal_move (joinMove p q) legal =
      some (closestLegalMoveSpec (joinMove p q) legal) := by
  have hne := joinMove_ne_nil hp q
  obtain ⟨-, hsplit⟩ := wf_strip_split hp hq
  have hfil : legal.filter (fun mv => strStarts p mv) =
      legal.filter (fun l => decide (p = (splitWS l).headD [])) := by
    apply List.filter_congr
    intro l hl
    obtain ⟨p', q', hp', hq', rfl⟩ := isWellFormedMove_shape (hwf l hl)
    obtain ⟨-, hsplit'⟩ := wf_strip_split hp' hq'
    rw [hsplit', strStarts_joinMove_eq q' hp hp']
    simp
  simp only [find_closest_legal_move, closestLegalMoveSpec]
  rw [if_neg (by simp [hne, hlegal])]
  rw [hsplit]
  show (match legal.filter (fun mv => strStarts p mv) with
        | [] => some (legal.headD [])
        | x :: _ => some x) =
      some (match legal.filter (fun l => decide (p = (splitWS l).headD [])) with
        | [] => legal.headD []
        | x :: _ => x)
  rw [hfil]
  cases hF : legal.filter (fun l => decide (p = (splitWS l).headD [])) with
  | nil => rfl
  | cons x t => rfl

lemma validate_wf_legal {p q : Str} (hp : p ∈ validPositions) (hq : q ∈ validPositions)
    (legal : List Str) :
    validate_and_process_move (joinMove p q) (some legal) =
      if legal ≠ [] ∧ joinMove p q ∉ legal then none else some (joinMove p q) := by
  obtain ⟨hstrip, hsplit⟩ := wf_strip_split hp hq
  simp only [validate_and_process_move, hstrip, hsplit]
  rw [valid_position_of_mem hp, valid_position_of_mem hq]
  simp

lemma strStarts_refl_append (s t : Str) : strStarts s (s ++ t) = true := by
  induction s with
  | nil => rfl
  | cons a as ih => simp [strStarts, ih]

lemma isSubstr_of_strStarts {s h : Str} (hs : strStarts s h = true) : isSubstr s h = true := by
  cases h with
  | nil =>
    cases s with
    | nil => decide
    | cons a as => exact absurd hs (by simp [strStarts])
  | cons b bs => simp [isSubstr, hs]

lemma isSubstr_append_middle (pre s post : Str) : isSubstr s (pre ++ (s ++ post)) = true := by
  induction pre with
  | nil => rw [List.nil_append]; exact isSubstr_of_strStarts (strStarts_refl_append s post)
  | cons c t ih => simp [isSubstr, ih]

-- ## Claim theorems

/-- C3: the Coordinate Validator accepts exactly the three-character tokens
whose colour is in `{R,B,G}`, file in `{A,B,C}` and rank in `{1,2,3,4}`;
every other input — wrong length, wrong characters, empty, `None` — yields
`false` (the model is total, reflecting that the Python wrapper catches every
exception and returns `False`). -/
theorem is_valid_position_correct :
    ∀ pos : Option Str, is_valid_position pos = true ↔
      ∃ c f r, pos = some [c, f, r] ∧
        c ∈ VALID_COLORS ∧ f ∈ VALID_FILES ∧ r ∈ VALID_RANKS := by
  intro pos
  constructor
  · intro h
    rcases pos with - | s
    · exact absurd h (by decide)
    have hex : ∃ c f r, s = [c, f, r] := by
      rcases s with - | ⟨c, - | ⟨f, - | ⟨r, - | ⟨x, t⟩⟩⟩⟩ <;>
        first
          | exact ⟨_, _, _, rfl⟩
          | exact absurd h (by simp [is_valid_position])
    obtain ⟨c, f, r, rfl⟩ := hex
    have h' : (VALID_COLORS.contains c && VALID_FILES.contains f &&
        VALID_RANKS.contains r) = true := h
    rw [Bool.and_eq_true, Bool.and_eq_true] at h'
    exact ⟨c, f, r, rfl, by simpa using h'.1.1, by simpa using h'.1.2, by simpa using h'.2⟩
  · rintro ⟨c, f, r, rfl, hc, hf, hr⟩
    show (VALID_COLORS.contains c && VALID_FILES.contains f &&
        VALID_RANKS.contains r) = true
    rw [Bool.and_eq_true, Bool.and_eq_true]
    exact ⟨⟨by simpa using hc, by simpa using hf⟩, by simpa using hr⟩

/-- C2 counterexample: the claim says an input whose tokens are separated by
two or more spaces is rejected, but Python's `split()` collapses whitespace
runs, so `"RA2  RA3"` (two spaces) is accepted, not rejected. -/
theorem validate_two_spaces_accepted :
    validate_and_process_move (lit "RA2  RA3") none ≠ none := by
  decide

/-- C2 (amended): if the trimmed input splits on whitespace into exactly two
well-formed coordinate tokens the parser returns the trimmed input unchanged
(in particular the normalized string when the separator is exactly one
space); if the input has zero spaces between tokens or a malformed token it
returns none.  Two or more whitespace separators do not cause failure. -/
theorem validate_characterization :
    ∀ m : Str,
      (∀ p q, splitWS (strip m) = [p, q] →
        is_valid_position (some p) = true → is_valid_position (some q) = true →
        validate_and_process_move m none = some (strip m)) ∧
      ((match splitWS (strip m) with
        | [p, q] => is_valid_position (some p) && is_valid_position (some q)
        | _ => false) = false →
        validate_and_process_move m none = none) := by
  intro m
  constructor
  · intro p q hsplit hp hq
    simp only [validate_and_process_move, hsplit]
    rw [hp, hq]
    rfl
  · intro h
    simp only [validate_and_process_move]
    cases hs : splitWS (strip m) with
    | nil => rfl
    | cons a t =>
      cases t with
      | nil => rfl
      | cons b t2 =>
        cases t2 with
        | nil =>
          rw [hs] at h
          have h' : (is_valid_position (some a) && is_valid_position (some b)) = false := h
          show (if (is_valid_position (some a) && is_valid_position (some b)) = true
              then some (strip m) else none) = none
          rw [h']
          rfl
        | cons c t3 => rfl

/-- C2 witness: the two-space input is accepted and returned with its
internal spacing preserved. -/
theorem validate_characterization_witness :
    validate_and_process_move (lit "RA2  RA3") none = some (lit "RA2  RA3") := by
  have h := (validate_characterization (lit "RA2  RA3")).1 (lit "RA2") (lit "RA3")
    (by decide) (by decide) (by decide)
  exact h.trans (by decide)

/-- C4: for a well-formed move string and a non-empty list of well-formed
legal moves, the parser returns the move iff it appears verbatim in the
list; otherwise it returns none, and the closest-move suggestion is the
first legal move sharing the same `from` token, or, failing that, the first
legal move in the list. -/
theorem validate_legal_membership_and_suggestion :
    ∀ (m : Str) (legal : List Str),
      isWellFormedMove m = true → legal ≠ [] →
      (∀ l ∈ legal, isWellFormedMove l = true) →
      (m ∈ legal → validate_and_process_move m (some legal) = some m) ∧
      (m ∉ legal →
        validate_and_process_move m (some legal) = none ∧
        find_closest_legal_move m legal = some (closestLegalMoveSpec m legal)) := by
  intro m legal hm hlegal hwf
  obtain ⟨p, q, hp, hq, rfl⟩ := isWellFormedMove_shape hm
  constructor
  · intro hmem
    rw [validate_wf_legal hp hq, if_neg (fun hcon => hcon.2 hmem)]
  · intro hnm
    exact ⟨by rw [validate_wf_legal hp hq, if_pos ⟨hlegal, hnm⟩],
      find_closest_eq_spec hp hq hlegal hwf⟩

/-- C4 witness: with legal moves `["RA2 RA3", "RB1 RC3"]`, the member
`"RA2 RA3"` is returned; `"RA2 RA4"` is rejected with suggestion
`"RA2 RA3"`. -/
theorem validate_legal_membership_and_suggestion_witness :
    validate_and_process_move (lit "RA2 RA3") (some [lit "RA2 RA3", lit "RB1 RC3"]) =
      some (lit "RA2 RA3") ∧
    validate_and_process_move (lit "RA2 RA4") (some [lit "RA2 RA3", lit "RB1 RC3"]) = none ∧
    find_closest_legal_move (lit "RA2 RA4") [lit "RA2 RA3", lit "RB1 RC3"] =
      some (lit "RA2 RA3") := by
  have h1 := (validate_legal_membership_and_suggestion (lit "RA2 RA3")
    [lit "RA2 RA3", lit "RB1 RC3"] (by decide) (by decide) (by decide)).1 (by decide)
  have h2 := (validate_legal_membership_and_suggestion (lit "RA2 RA4")
    [lit "RA2 RA3", lit "RB1 RC3"] (by decide) (by decide) (by decide)).2 (by decide)
  exact ⟨h1, h2.1, h2.2.trans (by decide)⟩

/-- C6: a non-empty space-free cascade result of exactly six characters gets
a space inserted after position 3 by the repair step; space-free results of
any other length pass through unchanged. -/
theorem repair_step_six_char :
    ∀ m : Str, m.contains ' ' = false →
      (m.length = 6 → repairStep m = m.take 3 ++ ' ' :: m.drop 3) ∧
      (m.length ≠ 6 → repairStep m = m) := by
  intro m h
  constructor
  · intro h6
    have hne : m ≠ [] := by
      intro hm
      rw [hm] at h6
      exact absurd h6 (by decide)
    unfold repairStep
    rw [if_pos ⟨hne, h, h6⟩]
  · intro h6
    unfold repairStep
    rw [if_neg (fun hcon => h6 hcon.2.2)]

/-- C6 witness: `"RB1RC3"` is repaired to `"RB1 RC3"`. -/
theorem repair_step_six_char_witness :
    (lit "RB1RC3").contains ' ' = false ∧ repairStep (lit "RB1RC3") = lit "RB1 RC3" := by
  refine ⟨by decide, ?_⟩
  have h := (repair_step_six_char (lit "RB1RC3") (by decide)).1 (by decide)
  exact h.trans (by decide)

/-- C1: for every LLM response and mover colour the cascade's final output is
a non-empty move string; when no stage recovers a candidate, or when the
recovered candidate fails the Move Parser, the output is the hardcoded
per-colour opening move (`"BA2 BA3"` / `"RA2 RA3"` / `"GA2 GA3"`); no error
is ever produced. -/
theorem cascade_always_yields_move :
    ∀ (resp : LLMResponse) (color : Str),
      get_llm_move_model resp color ≠ [] ∧
      (rawCandidate resp = none → get_llm_move_model resp color = fallbackMove color) ∧
      (validate_and_process_move (postProcess (candidateWithFallback resp color)) none = none →
        get_llm_move_model resp color = fallbackMove color) ∧
      fallbackMove (lit "BLUE") = lit "BA2 BA3" ∧
      fallbackMove (lit "RED") = lit "RA2 RA3" ∧
      fallbackMove (lit "GREEN") = lit "GA2 GA3" := by
  intro resp color
  refine ⟨?_, fun h => get_llm_move_of_rawNone h, fun h => get_llm_move_of_validate_none h,
    by decide, by decide, by decide⟩
  cases hv : validate_and_process_move (postProcess (candidateWithFallback resp color)) none with
  | some v =>
    have hval : get_llm_move_model resp color = v := by
      simp only [get_llm_move_model, hv]
    rw [hval]
    exact validate_eq_some_ne_nil hv
  | none =>
    rw [get_llm_move_of_validate_none hv]
    exact fallbackMove_ne_nil color

/-- C1 witness: an empty response for RED yields the fixed move
`"RA2 RA3"`. -/
theorem cascade_always_yields_move_witness :
    get_llm_move_model ⟨[], none⟩ (lit "RED") = lit "RA2 RA3" := by
  have h := cascade_always_yields_move ⟨[], none⟩ (lit "RED")
  rw [h.2.1 (by decide)]
  exact h.2.2.2.2.1

/-- C10: in every fixed-fallback branch a mover colour other than exactly
`"BLUE"` or `"RED"` — including the empty string or any unrecognised value —
yields the GREEN fallback `"GA2 GA3"`: the shared fallback conditional, the
extraction-exhaustion branch, the post-validation branch, and the HTTP
handler's empty-move check. -/
theorem offcolor_fallback_green :
    ∀ color : Str, color ≠ lit "BLUE" → color ≠ lit "RED" →
      fallbackMove color = lit "GA2 GA3" ∧
      (∀ resp : LLMResponse, rawCandidate resp = none →
        get_llm_move_model resp color = lit "GA2 GA3") ∧
      (∀ resp : LLMResponse,
        validate_and_process_move (postProcess (candidateWithFallback resp color)) none = none →
        get_llm_move_model resp color = lit "GA2 GA3") ∧
      handlerNormalize [] color = lit "GA2 GA3" := by
  intro color hb hr
  have hg : fallbackMove color = lit "GA2 GA3" := by
    unfold fallbackMove
    rw [if_neg hb, if_neg hr]
  refine ⟨hg, fun resp h => (get_llm_move_of_rawNone h).trans hg,
    fun resp h => (get_llm_move_of_validate_none h).trans hg, ?_⟩
  simp only [handlerNormalize, if_true]
  rw [hg]
  decide

/-- C10 witness: the unrecognised colour `"PURPLE"` yields the GREEN
fallback everywhere. -/
theorem offcolor_fallback_green_witness :
    fallbackMove (lit "PURPLE") = lit "GA2 GA3" ∧
    get_llm_move_model ⟨[], none⟩ (lit "PURPLE") = lit "GA2 GA3" ∧
    handlerNormalize [] (lit "PURPLE") = lit "GA2 GA3" := by
  have h := offcolor_fallback_green (lit "PURPLE") (by decide) (by decide)
  exact ⟨h.1, h.2.1 ⟨[], none⟩ (by decide), h.2.2.2⟩

/-- C5: when the response's `decide_move` invocation captured a well-formed
move argument (wrapped in sentinel markers at capture), the cascade returns
exactly that argument: the later unwrap undoes the wrapping, regardless of
any free-text content. -/
theorem decide_move_round_trip :
    ∀ (tcs : List ToolCall) (cnt : Option Str) (m : Str) (color : Str),
      isWellFormedMove m = true →
      (toolStage tcs).1 = some (wrapSentinel m) →
      get_llm_move_model ⟨tcs, cnt⟩ color = m := by
  intro tcs cnt m color hm htool
  have hmem := isWellFormedMove_mem hm
  have hraw := @rawCandidate_tool tcs (wrapSentinel m) cnt htool (wrapSentinel_ne_nil m)
  have hcand : candidateWithFallback ⟨tcs, cnt⟩ color = wrapSentinel m := by
    simp only [candidateWithFallback, hraw]
    rw [if_neg (wrapSentinel_ne_nil m)]
  simp only [get_llm_move_model, hcand, validate_postProcess_wrap hmem]

/-- C5 witness: `decide_move(move="GB1 GC3")` round-trips to
`"GB1 GC3"`. -/
theorem decide_move_round_trip_witness :
    get_llm_move_model ⟨[⟨lit "decide_move", [(lit "move", lit "GB1 GC3")]⟩], none⟩
      (lit "RED") = lit "GB1 GC3" :=
  decide_move_round_trip _ none (lit "GB1 GC3") (lit "RED") (by decide) (by decide)

/-- C7: an already-valid move string supplied as the response's free-text
content with no tool invocations passes through the full cascade plus parser
unchanged (no legal-move list supplied). -/
theorem cascade_idempotent_on_wellformed :
    ∀ (m color : Str), isWellFormedMove m = true →
      get_llm_move_model ⟨[], some m⟩ color = m := by
  intro m color hm
  obtain ⟨p, q, hp, hq, rfl⟩ := isWellFormedMove_shape hm
  have hmem := mem_validMoves hp hq
  have hne := joinMove_ne_nil hp q
  have hcand : candidateWithFallback ⟨[], some (joinMove p q)⟩ color = joinMove p q := by
    simp only [candidateWithFallback, rawCandidate_content_wf hmem hne]
    rw [if_neg hne]
  simp only [get_llm_move_model, hcand, validate_postProcess_wf hmem]

/-- C7 witness: the content `"RA2 RA3"` comes back unchanged. -/
theorem cascade_idempotent_on_wellformed_witness :
    get_llm_move_model ⟨[], some (lit "RA2 RA3")⟩ (lit "BLUE") = lit "RA2 RA3" :=
  cascade_idempotent_on_wellformed (lit "RA2 RA3") (lit "BLUE") (by decide)

/-- C8: a missing or empty/whitespace API key makes the provider call fail
outright with an error naming the provider, independently of the provider
call itself (no network call is attempted); a failing provider call is
re-raised wrapped with provider context. -/
theorem provider_credential_check_and_wrapping :
    ∀ (env : Str → Option Str) (provider : Str) (call call2 : Str → Except Str Str),
      (strip (get_api_key env provider) = [] →
        one_function_to_call_them_all env provider call =
          .error (wrapProviderError provider (lit "No API key found for " ++ provider)) ∧
        one_function_to_call_them_all env provider call =
          one_function_to_call_them_all env provider call2) ∧
      (∀ e : Str, strip (get_api_key env provider) ≠ [] →
        call (get_api_key env provider) = .error e →
        one_function_to_call_them_all env provider call =
          .error (wrapProviderError provider e)) ∧
      (∀ e : Str, isSubstr provider (wrapProviderError provider e) = true) := by
  intro env provider call call2
  refine ⟨?_, ?_, ?_⟩
  · intro h
    have hcond : get_api_key env provider = [] ∨ strip (get_api_key env provider) = [] :=
      Or.inr h
    constructor <;> simp only [one_function_to_call_them_all, if_pos hcond]
  · intro e hne herr
    have hcond : ¬(get_api_key env provider = [] ∨ strip (get_api_key env provider) = []) := by
      rintro (h1 | h2)
      · exact hne (by rw [h1]; rfl)
      · exact hne h2
    simp only [one_function_to_call_them_all, if_neg hcond, herr]
  · intro e
    have h := isSubstr_append_middle (lit "Error calling ") provider (lit " LLM: " ++ e)
    simpa [wrapProviderError, List.append_assoc] using h

/-- C8 witness: with no `OPENAI_API_KEY` the call fails with the descriptive
message regardless of the provider call; with a key and a failing call the
error is wrapped with provider context. -/
theorem provider_credential_check_and_wrapping_witness :
    one_function_to_call_them_all (fun _ => none) (lit "openai") (fun _ => .ok []) =
      .error (wrapProviderError (lit "openai") (lit "No API key found for " ++ lit "openai")) ∧
    one_function_to_call_them_all (fun _ => some (lit "sk")) (lit "openai")
      (fun _ => .error (lit "boom")) = .error (wrapProviderError (lit "openai") (lit "boom")) := by
  constructor
  · exact ((provider_credential_check_and_wrapping (fun _ => none) (lit "openai")
      (fun _ => .ok []) (fun _ => .ok [])).1 (by decide)).1
  · exact (provider_credential_check_and_wrapping (fun _ => some (lit "sk")) (lit "openai")
      (fun _ => .error (lit "boom")) (fun _ => .error (lit "boom"))).2.1 (lit "boom")
      (by decide) rfl

/-- C9: every record appended to the agent-memory move log carries
`valid = True` and the flag is never updated, so in every reachable state of
the log the `/agent-memory` statistics report `invalid_moves = 0`, and
`validity_percentage = 100` whenever at least one move has been recorded. -/
theorem agent_memory_validity_invariant :
    ∀ ms : List MoveRecord, MovesReachable ms →
      invalidMovesCount ms = 0 ∧ (ms ≠ [] → validityPercentage ms = 100) := by
  intro ms hreach
  have hall : ∀ r ∈ ms, r.valid = true := by
    induction hreach with
    | init => intro r hr; exact absurd hr (List.not_mem_nil r)
    | step ms c mv hprev ih =>
      intro r hr
      rcases List.mem_append.mp hr with h1 | h2
      · exact ih r h1
      · rw [List.mem_singleton.mp h2]
  have hfil : ms.filter (fun m => m.valid) = ms := List.filter_eq_self.mpr hall
  have hcount : validMovesCount ms = ms.length := by rw [validMovesCount, hfil]
  refine ⟨by rw [invalidMovesCount, hcount, Nat.sub_self], ?_⟩
  intro hne
  have hlen : 1 ≤ ms.length := by
    cases ms with
    | nil => exact absurd rfl hne
    | cons a t => simp
  have hlen0 : (ms.length : ℚ) ≠ 0 := by
    have : ms.length ≠ 0 := by omega
    exact_mod_cast this
  rw [validityPercentage, hcount, max_eq_right (by exact_mod_cast hlen), div_self hlen0]
  norm_num

/-- C9 witness: after recording one move the statistics report zero invalid
moves and 100 percent validity. -/
theorem agent_memory_validity_invariant_witness :
    invalidMovesCount (recordMove [] (lit "RED") (lit "RA2 RA3")) = 0 ∧
    validityPercentage (recordMove [] (lit "RED") (lit "RA2 RA3")) = 100 := by
  have h := agent_memory_validity_invariant (recordMove [] (lit "RED") (lit "RA2 RA3"))
    (MovesReachable.step [] (lit "RED") (lit "RA2 RA3") MovesReachable.init)
  exact ⟨h.1, h.2 (by simp [recordMove])⟩

end ThreeChess
